import Mathlib

/-!
# Verification of the MCP server manager registry and routing layer

A shallow embedding of `litellm/proxy/_experimental/mcp_server/mcp_server_manager.py`:
the registry of upstream MCP servers (static config partition and dynamic partition),
stable server-id generation (SHA-256 of the pipe-joined parameters, truncated),
tool-catalog aggregation with per-server failure isolation, and tool-call routing
with prefix verification.

Python dicts are modelled as insertion-ordered association lists; the Python
dict-union operator `a | b` (right operand wins on key collision, left operand's
key order kept) is modelled by `dunion`.  Helper functions from
`mcp_server/utils.py` (name codec, alias validation) are not part of the sources
and are modelled from the spec; each such definition says so in its doc comment.
-/

/-! ## Association lists with Python dict semantics -/

/-- Lookup of a key in an insertion-ordered association list (Python `d[k]` / `d.get(k)`). -/
def dget? {α : Type} : List (String × α) → String → Option α
  | [], _ => none
  | (k, v) :: rest, key => if k = key then some v else dget? rest key

/-- Python `k in d`. -/
def dcontains {α : Type} (d : List (String × α)) (k : String) : Bool :=
  (dget? d k).isSome

/-- Python `d[k] = v`: update in place if the key exists, else append. -/
def dinsert {α : Type} : List (String × α) → String → α → List (String × α)
  | [], k, v => [(k, v)]
  | (k', v') :: rest, k, v =>
    if k' = k then (k, v) :: rest else (k', v') :: dinsert rest k v

/-- Python `del d[k]` (the key is assumed present; deleting an absent key is
modelled at the call site, where Python would raise `KeyError`). -/
def derase {α : Type} : List (String × α) → String → List (String × α)
  | [], _ => []
  | (k', v') :: rest, k => if k' = k then rest else (k', v') :: derase rest k

/-- Python `list(d.keys())`. -/
def dkeys {α : Type} (d : List (String × α)) : List String :=
  d.map Prod.fst

/-- Python `list(d.values())`. -/
def dvalues {α : Type} (d : List (String × α)) : List α :=
  d.map Prod.snd

/-- Python dict union `a | b`: keys of `a` first (values overridden by `b` where
shared), then the keys of `b` not in `a`, in `b`'s order; `b` wins ties. -/
def dunion {α : Type} (a b : List (String × α)) : List (String × α) :=
  a.map (fun p => match dget? b p.1 with | some v => (p.1, v) | none => p) ++
    b.filter (fun p => !(dcontains a p.1))

/-! ## SHA-256 over byte lists (bytes and words are `Nat` reduced mod `2 ^ 32`) -/

/-- `2 ^ 32`, the word modulus of SHA-256. -/
def M32 : Nat := 4294967296

/-- Right rotation of a 32-bit word. -/
def rotr32 (n w : Nat) : Nat := ((w >>> n) ||| (w <<< (32 - n))) % M32

/-- The SHA-256 choice function. -/
def shaCh (x y z : Nat) : Nat := (x &&& y) ^^^ ((x ^^^ 4294967295) &&& z)

/-- The SHA-256 majority function. -/
def shaMaj (x y z : Nat) : Nat := (x &&& y) ^^^ (x &&& z) ^^^ (y &&& z)

/-- SHA-256 Σ₀. -/
def bigS0 (x : Nat) : Nat := rotr32 2 x ^^^ rotr32 13 x ^^^ rotr32 22 x

/-- SHA-256 Σ₁. -/
def bigS1 (x : Nat) : Nat := rotr32 6 x ^^^ rotr32 11 x ^^^ rotr32 25 x

/-- SHA-256 σ₀. -/
def smallS0 (x : Nat) : Nat := rotr32 7 x ^^^ rotr32 18 x ^^^ (x >>> 3)

/-- SHA-256 σ₁. -/
def smallS1 (x : Nat) : Nat := rotr32 17 x ^^^ rotr32 19 x ^^^ (x >>> 10)

/-- The 64 SHA-256 round constants. -/
def shaK : List Nat :=
  [1116352408, 1899447441, 3049323471, 3921009573, 961987163,
   1508970993, 2453635748, 2870763221, 3624381080, 310598401,
   607225278, 1426881987, 1925078388, 2162078206, 2614888103,
   3248222580, 3835390401, 4022224774, 264347078, 604807628,
   770255983, 1249150122, 1555081692, 1996064986, 2554220882,
   2821834349, 2952996808, 3210313671, 3336571891, 3584528711,
   113926993, 338241895, 666307205, 773529912, 1294757372,
   1396182291, 1695183700, 1986661051, 2177026350, 2456956037,
   2730485921, 2820302411, 3259730800, 3345764771, 3516065817,
   3600352804, 4094571909, 275423344, 430227734, 506948616,
   659060556, 883997877, 958139571, 1322822218, 1537002063,
   1747873779, 1955562222, 2024104815, 2227730452, 2361852424,
   2428436474, 2756734187, 3204031479, 3329325298]

/-- The eight 32-bit words of a SHA-256 state. -/
structure Hash8 where
  h0 : Nat
  h1 : Nat
  h2 : Nat
  h3 : Nat
  h4 : Nat
  h5 : Nat
  h6 : Nat
  h7 : Nat
deriving DecidableEq

/-- The SHA-256 initial hash value. -/
def shaInit : Hash8 :=
  ⟨1779033703, 3144134277, 1013904242, 2773480762,
   1359893119, 2600822924, 528734635, 1541459225⟩

/-- Big-endian packing of bytes into 32-bit words. -/
def bytesToWords : List Nat → List Nat
  | b0 :: b1 :: b2 :: b3 :: rest =>
    (b0 * 16777216 + b1 * 65536 + b2 * 256 + b3) :: bytesToWords rest
  | _ => []

/-- Extend the 16 block words to the 64-word message schedule (`fuel` more words). -/
def extendW : Nat → List Nat → List Nat
  | 0, ws => ws
  | n + 1, ws =>
    let i := ws.length
    let w := (smallS1 (ws.getD (i - 2) 0) + ws.getD (i - 7) 0 +
              smallS0 (ws.getD (i - 15) 0) + ws.getD (i - 16) 0) % M32
    extendW n (ws ++ [w])

/-- One SHA-256 compression round, fed one `(schedule word, round constant)` pair. -/
def shaRound (s : Hash8) (wk : Nat × Nat) : Hash8 :=
  let t1 := (s.h7 + bigS1 s.h4 + shaCh s.h4 s.h5 s.h6 + wk.1 + wk.2) % M32
  let t2 := (bigS0 s.h0 + shaMaj s.h0 s.h1 s.h2) % M32
  ⟨(t1 + t2) % M32, s.h0, s.h1, s.h2, (s.h3 + t1) % M32, s.h4, s.h5, s.h6⟩

/-- SHA-256 compression of one 64-byte block into the running state. -/
def shaCompress (s : Hash8) (block : List Nat) : Hash8 :=
  let ws := extendW 48 (bytesToWords block)
  let t := (ws.zip shaK).foldl shaRound s
  ⟨(s.h0 + t.h0) % M32, (s.h1 + t.h1) % M32, (s.h2 + t.h2) % M32,
   (s.h3 + t.h3) % M32, (s.h4 + t.h4) % M32, (s.h5 + t.h5) % M32,
   (s.h6 + t.h6) % M32, (s.h7 + t.h7) % M32⟩

/-- A natural number as `n` big-endian bytes. -/
def toBytesBE : Nat → Nat → List Nat
  | 0, _ => []
  | n + 1, v => (v / 256 ^ n) % 256 :: toBytesBE n v

/-- SHA-256 padding: a `0x80` byte, zeros to 56 mod 64, then the bit length as
eight big-endian bytes. -/
def shaPad (msg : List Nat) : List Nat :=
  let l := msg.length
  let k := (119 - l % 64) % 64
  msg ++ [128] ++ List.replicate k 0 ++ toBytesBE 8 ((8 * l) % 18446744073709551616)

/-- Split a byte list into 64-byte blocks, structurally recursing on a fuel
bound (each step strictly shortens a non-empty list, so `l.length` fuel is
enough). -/
def toBlocksFuel : Nat → List Nat → List (List Nat)
  | 0, _ => []
  | _, [] => []
  | fuel + 1, b :: rest => ((b :: rest).take 64) :: toBlocksFuel fuel ((b :: rest).drop 64)

/-- Split a padded message into 64-byte blocks. -/
def toBlocks (l : List Nat) : List (List Nat) :=
  toBlocksFuel l.length l

/-- SHA-256 of a byte list. -/
def sha256Hash (msg : List Nat) : Hash8 :=
  (toBlocks (shaPad msg)).foldl shaCompress shaInit

/-- The lowercase hex digit for a nibble. -/
def hexChar (n : Nat) : Char :=
  if n < 10 then Char.ofNat (48 + n) else Char.ofNat (87 + n)

/-- The eight lowercase hex digits of a 32-bit word, most significant first. -/
def wordHexChars (w : Nat) : List Char :=
  [hexChar ((w >>> 28) % 16), hexChar ((w >>> 24) % 16),
   hexChar ((w >>> 20) % 16), hexChar ((w >>> 16) % 16),
   hexChar ((w >>> 12) % 16), hexChar ((w >>> 8) % 16),
   hexChar ((w >>> 4) % 16), hexChar (w % 16)]

/-- The 64 hex characters of a SHA-256 digest (Python `hashlib`'s `hexdigest()`). -/
def hash8HexChars (h : Hash8) : List Char :=
  wordHexChars h.h0 ++ wordHexChars h.h1 ++ wordHexChars h.h2 ++ wordHexChars h.h3 ++
    wordHexChars h.h4 ++ wordHexChars h.h5 ++ wordHexChars h.h6 ++ wordHexChars h.h7

/-- A character is a lowercase hexadecimal digit. -/
def isLowerHexChar (c : Char) : Bool :=
  (48 ≤ c.toNat && c.toNat ≤ 57) || (97 ≤ c.toNat && c.toNat ≤ 102)

/-- UTF-8 encoding of one character (Python `str.encode` on one code point). -/
def charUtf8 (c : Char) : List Nat :=
  let n := c.toNat
  if n < 128 then [n]
  else if n < 2048 then [192 ||| (n >>> 6), 128 ||| (n &&& 63)]
  else if n < 65536 then
    [224 ||| (n >>> 12), 128 ||| ((n >>> 6) &&& 63), 128 ||| (n &&& 63)]
  else
    [240 ||| (n >>> 18), 128 ||| ((n >>> 12) &&& 63),
     128 ||| ((n >>> 6) &&& 63), 128 ||| (n &&& 63)]

/-- UTF-8 bytes of a string (Python `s.encode("utf-8")`). -/
def strBytes (s : String) : List Nat :=
  (s.data.map charUtf8).flatten

/-! ## Data model

Mirrors `MCPServer` (from `litellm/types/mcp_server/mcp_server_manager.py`),
`LiteLLM_MCPServerTable` (the database row type), the MCP `Tool` type and the
configuration entry shape consumed by `load_servers_from_config`.  `mcp_info`
cost info and tool input schemas are opaque pass-through data, kept as strings. -/

/-- The `MCPInfo` dict attached to a server: name, description, cost info. -/
structure MCPInfo where
  server_name : String
  description : Option String
  mcp_server_cost_info : Option String
deriving DecidableEq

/-- An upstream server record held in the manager's partitions (`MCPServer`). -/
structure MCPServer where
  server_id : String
  name : String
  url : String
  command : Option String
  args : List String
  env : Option (List (String × String))
  transport : String
  spec_version : String
  auth_type : Option String
  mcp_info : MCPInfo
deriving DecidableEq

/-- A dynamic-partition upstream record as stored in the database
(`LiteLLM_MCPServerTable`): the optional alias field (called `alias` in the
source; that word is a reserved command keyword here, hence `server_alias`) and
the stdio fields may be absent. -/
structure LiteLLM_MCPServerTable where
  server_id : String
  server_alias : Option String
  description : Option String
  url : String
  transport : String
  spec_version : String
  auth_type : Option String
  command : Option String
  args : Option (List String)
  env : Option (List (String × String))
  mcp_info : Option MCPInfo
deriving DecidableEq

/-- A tool reported by an upstream (`mcp.types.Tool`): name, description and an
opaque input schema. -/
structure MCPTool where
  name : String
  description : Option String
  inputSchema : String
deriving DecidableEq

/-- One static configuration entry (the value under an alias key in
`mcp_servers_config`); absent keys are `none`. -/
structure ServerConfig where
  url : Option String
  command : Option String
  args : Option (List String)
  env : Option (List (String × String))
  transport : Option String
  spec_version : Option String
  auth_type : Option String
  description : Option String
  mcp_server_cost_info : Option String
deriving DecidableEq

/-- The mutable state of an `MCPServerManager`: the dynamic partition
(`registry`), the static partition (`config_mcp_servers`) and the tool-name
reverse index (`tool_name_to_mcp_server_name_mapping`), all Python dicts keyed
by strings. -/
structure MCPServerManager where
  registry : List (String × MCPServer)
  config_mcp_servers : List (String × MCPServer)
  tool_name_to_mcp_server_name_mapping : List (String × String)
deriving DecidableEq

/-- A fresh manager (`MCPServerManager.__init__`). -/
def MCPServerManager.empty : MCPServerManager := ⟨[], [], []⟩

/-! ## Name codec and alias validation (modelled from the spec)

These helpers live in `litellm/proxy/_experimental/mcp_server/utils.py`, which
is not among the sources; they are modelled from the spec's Name Codec
contract: compose is `alias.rawName` with `.` as the reserved separator,
decompose splits at the first separator and reports the claimed alias (absent
when the name carries no separator), and normalization is case-folding plus
trimming. -/

/-- Leading and trailing whitespace removed from a character list. -/
def trimChars (l : List Char) : List Char :=
  ((l.dropWhile Char.isWhitespace).reverse.dropWhile Char.isWhitespace).reverse

/-- Modelled from the spec: `normalize_server_name` from `utils.py` is not in
the sources; the spec defines normalization as case-folding + trimming. -/
def normalize_server_name (s : String) : String :=
  String.mk ((trimChars s.data).map Char.toLower)

/-- Modelled from the spec: `add_server_prefix_to_tool_name` from `utils.py` is
not in the sources; the spec composes `qualifiedName` as
`upstreamAlias.toolName`. -/
def add_server_prefix_to_tool_name (tool_name server_name : String) : String :=
  server_name ++ "." ++ tool_name

/-- Split a character list at the first `.`: `none` when there is no dot,
otherwise the characters before and after it. -/
def splitFirstDot : List Char → Option (List Char × List Char)
  | [] => none
  | c :: rest =>
    if c = '.' then some ([], rest)
    else (splitFirstDot rest).map (fun p => (c :: p.1, p.2))

/-- Modelled from the spec: `get_server_name_prefix_tool_mcp` from `utils.py`
is not in the sources; the spec's decompose detects the composition marker and
returns `(rawName, claimedAliasOrAbsent)`, splitting at the first separator. -/
def get_server_name_prefix_tool_mcp (name : String) : String × Option String :=
  match splitFirstDot name.data with
  | none => (name, none)
  | some p => (String.mk p.2, some (String.mk p.1))

/-- Modelled from the spec: `is_tool_name_prefixed` from `utils.py` is not in
the sources; a name is qualified exactly when it carries the composition
marker. -/
def is_tool_name_prefixed (name : String) : Bool :=
  (splitFirstDot name.data).isSome

/-- Modelled from the spec: `validate_mcp_server_name` from `utils.py` is not
in the sources; the spec says static loading "fails with `InvalidConfiguration`
if the alias is empty or uses reserved separator characters". -/
def validate_mcp_server_name (name : String) : Except String Unit :=
  if name = "" then Except.error "InvalidConfiguration"
  else if name.data.contains '.' then Except.error "InvalidConfiguration"
  else Except.ok ()

/-! ## Manager operations -/

/-- Python string truthiness of `a or b` for an optional string: an absent or
empty string falls back to the default. -/
def orNonEmpty (o : Option String) (d : String) : String :=
  match o with
  | some s => if s = "" then d else s
  | none => d

/-- The `params_string` of `_generate_stable_server_id`: the pipe-joined
parameter tuple, with an absent `auth_type` rendered as the empty string. -/
def stableIdParamsString (server_name url transport spec_version : String)
    (auth_type : Option String) : String :=
  server_name ++ "|" ++ url ++ "|" ++ transport ++ "|" ++ spec_version ++ "|" ++
    auth_type.getD ""

/-- `MCPServerManager._generate_stable_server_id`: first 32 hex characters of
the SHA-256 digest of `"name|url|transport|spec_version|auth_type-or-empty"`. -/
def _generate_stable_server_id (server_name url transport spec_version : String)
    (auth_type : Option String) : String :=
  String.mk (List.take 32 (hash8HexChars (sha256Hash (strBytes
    (stableIdParamsString server_name url transport spec_version auth_type)))))

/-- `MCPServerManager.get_registry`: the Python dict union
`self.config_mcp_servers | self.registry`. -/
def MCPServerManager.get_registry (self : MCPServerManager) : List (String × MCPServer) :=
  dunion self.config_mcp_servers self.registry

/-- The body of one iteration of `load_servers_from_config`'s loop after alias
validation: build the `MCPInfo`, the stable id and the `MCPServer`, and insert
it into the static partition. -/
def loadConfigEntry (st : MCPServerManager) (server_name : String) (sc : ServerConfig) :
    MCPServerManager :=
  let mcp_info : MCPInfo := ⟨server_name, sc.description, sc.mcp_server_cost_info⟩
  let server_id := _generate_stable_server_id server_name (sc.url.getD "")
    (sc.transport.getD "http") (sc.spec_version.getD "2025-03-26") sc.auth_type
  let new_server : MCPServer :=
    { server_id := server_id
      name := server_name
      url := sc.url.getD ""
      command := some (sc.command.getD "")
      args := sc.args.getD []
      env := some (sc.env.getD [])
      transport := sc.transport.getD "http"
      spec_version := sc.spec_version.getD "2025-03-26"
      auth_type := sc.auth_type
      mcp_info := mcp_info }
  { st with config_mcp_servers := dinsert st.config_mcp_servers server_id new_server }

/-- `MCPServerManager.load_servers_from_config`: iterate over the config
entries; each alias is validated (a failure raises, so the state keeps the
entries inserted so far and the remaining entries are not processed — returned
here as `(state, some error)`).  The trailing tool-name-mapping warm-up is an
asynchronous best-effort task (a no-op when no event loop is running) and does
not change the registry state. -/
def load_servers_from_config (st : MCPServerManager) :
    List (String × ServerConfig) → MCPServerManager × Option String
  | [] => (st, none)
  | (server_name, sc) :: rest =>
    match validate_mcp_server_name server_name with
    | Except.error e => (st, some e)
    | Except.ok _ => load_servers_from_config (loadConfigEntry st server_name sc) rest

/-- Python `del self.registry[k]`: raises `KeyError` when `k` is not a key of
the dynamic partition. -/
def delRegistryKey (st : MCPServerManager) (k : String) : Except String MCPServerManager :=
  if dcontains st.registry k then Except.ok { st with registry := derase st.registry k }
  else Except.error "KeyError"

/-- The `elif`/`else` tail of `remove_server`: delete by `server_id` when it is
a key of the union, otherwise log a warning and do nothing. -/
def removeById (st : MCPServerManager) (server_id : String) : Except String MCPServerManager :=
  if dcontains st.get_registry server_id then delRegistryKey st server_id
  else Except.ok st

/-- `MCPServerManager.remove_server`: membership is checked against the union
(`get_registry`), but deletion happens on the dynamic partition
(`self.registry`) only — so a key present only in the static partition makes
the `del` raise `KeyError`, modelled as `Except.error "KeyError"`. -/
def remove_server (st : MCPServerManager) (mcp_server : LiteLLM_MCPServerTable) :
    Except String MCPServerManager :=
  match mcp_server.server_alias with
  | some a =>
    if dcontains st.get_registry a then delRegistryKey st a
    else removeById st mcp_server.server_id
  | none => removeById st mcp_server.server_id

/-- `_deserialize_env_dict` on the dict-shaped input: a falsy (absent or empty)
value becomes `None`, a dictionary passes through.  (The JSON-string input form
is not representable in this model.) -/
def _deserialize_env_dict (env_data : Option (List (String × String))) :
    Option (List (String × String)) :=
  match env_data with
  | none => none
  | some d => if d = [] then none else some d

/-- `MCPServerManager.add_update_server`: insert a database record into the
dynamic partition only when its `server_id` is absent from the union of both
partitions; otherwise do nothing. -/
def add_update_server (st : MCPServerManager) (mcp_server : LiteLLM_MCPServerTable) :
    MCPServerManager :=
  if !(dcontains st.get_registry mcp_server.server_id) then
    let env_dict := _deserialize_env_dict mcp_server.env
    let new_server : MCPServer :=
      { server_id := mcp_server.server_id
        name := orNonEmpty mcp_server.server_alias mcp_server.server_id
        url := mcp_server.url
        transport := mcp_server.transport
        spec_version := mcp_server.spec_version
        auth_type := mcp_server.auth_type
        mcp_info :=
          ⟨orNonEmpty mcp_server.server_alias mcp_server.server_id, mcp_server.description,
            mcp_server.mcp_info.bind (fun i => i.mcp_server_cost_info)⟩
        command := mcp_server.command
        args := mcp_server.args.getD []
        env := env_dict }
    { st with registry := dinsert st.registry mcp_server.server_id new_server }
  else st

/-- `MCPServerManager.get_allowed_mcp_servers`: the authorization oracle
(`MCPRequestHandler.get_allowed_mcp_servers`, an external collaborator) is
passed in as its returned list; a non-empty oracle result is returned
unchanged, an empty one falls back to all keys of the union. -/
def get_allowed_mcp_servers (st : MCPServerManager) (allowed_from_oracle : List String) :
    List String :=
  if allowed_from_oracle.length > 0 then allowed_from_oracle
  else dkeys st.get_registry

/-- `MCPServerManager.get_mcp_server_by_id`: first record in the union whose
`server_id` field matches. -/
def get_mcp_server_by_id (st : MCPServerManager) (server_id : String) : Option MCPServer :=
  (dvalues st.get_registry).find? (fun s => s.server_id == server_id)

/-- The scan shared by both branches of `_get_mcp_server_from_tool_name`: first
record in the union whose normalized name matches the normalized target. -/
def findServerByName (st : MCPServerManager) (server_name : String) : Option MCPServer :=
  (dvalues st.get_registry).find?
    (fun s => normalize_server_name s.name == normalize_server_name server_name)

/-- `MCPServerManager._get_tools_from_server`: the upstream listing operation
(client connect + `list_tools`, an external collaborator) is passed in as
`list_tools_op`.  On success each tool is renamed to its prefixed form and both
the raw and the prefixed name are written to the reverse index; any failure is
caught at this boundary and contributes an empty list with the state
unchanged. -/
def _get_tools_from_server (list_tools_op : MCPServer → Except String (List MCPTool))
    (st : MCPServerManager) (server : MCPServer) : List MCPTool × MCPServerManager :=
  match list_tools_op server with
  | Except.error _ => ([], st)
  | Except.ok tools =>
    let st' := tools.foldl (fun acc t =>
      let pn := add_server_prefix_to_tool_name t.name server.name
      let m := dinsert acc.tool_name_to_mcp_server_name_mapping t.name server.name
      { acc with tool_name_to_mcp_server_name_mapping := dinsert m pn server.name }) st
    (tools.map (fun t => { t with name := add_server_prefix_to_tool_name t.name server.name }),
      st')

/-- `MCPServerManager.list_tools`: resolve each allowed id (unresolvable ids
are skipped with a warning), fetch that server's tools with the per-server
failure boundary of `_get_tools_from_server`, and concatenate in allow-list
order. -/
def list_tools (list_tools_op : MCPServer → Except String (List MCPTool))
    (st : MCPServerManager) (allowed_from_oracle : List String) :
    List MCPTool × MCPServerManager :=
  let allowed := get_allowed_mcp_servers st allowed_from_oracle
  allowed.foldl (fun acc server_id =>
    match get_mcp_server_by_id acc.2 server_id with
    | none => acc
    | some server =>
      let r := _get_tools_from_server list_tools_op acc.2 server
      (acc.1 ++ r.1, r.2)) ([], st)

/-- `MCPServerManager._get_mcp_server_from_tool_name`: look the exact name up
in the reverse index and find the named server in the union; if that yields
nothing and the name is prefixed, find a server whose normalized name equals
the normalized claimed alias. -/
def _get_mcp_server_from_tool_name (st : MCPServerManager) (tool_name : String) :
    Option MCPServer :=
  let firstTry :=
    match dget? st.tool_name_to_mcp_server_name_mapping tool_name with
    | some server_name => findServerByName st server_name
    | none => none
  match firstTry with
  | some s => some s
  | none =>
    if is_tool_name_prefixed tool_name then
      match (get_server_name_prefix_tool_mcp tool_name).2 with
      | some pfx => findServerByName st pfx
      | none => none
    else none

/-- Routing failures raised by `call_tool` (`ValueError` in the source). -/
inductive RouteError where
  | toolNotFound
  | prefixMismatch
deriving DecidableEq

/-- `MCPServerManager.call_tool`: decompose the requested name, resolve the
owning server, reject a non-empty claimed alias whose normalization differs
from the resolved server's normalized name, and dispatch the upstream call
(`call_tool_op`, the external client capability) with the original (raw) tool
name, returning its result unchanged. -/
def call_tool {Args R : Type} (call_tool_op : MCPServer → String → Args → R)
    (st : MCPServerManager) (name : String) (arguments : Args) : Except RouteError R :=
  let dec := get_server_name_prefix_tool_mcp name
  match _get_mcp_server_from_tool_name st name with
  | none => Except.error RouteError.toolNotFound
  | some mcp_server =>
    match dec.2 with
    | some pfx =>
      if pfx ≠ "" ∧ normalize_server_name pfx ≠ normalize_server_name mcp_server.name then
        Except.error RouteError.prefixMismatch
      else Except.ok (call_tool_op mcp_server dec.1 arguments)
    | none => Except.ok (call_tool_op mcp_server dec.1 arguments)

/-! ## Concrete fixtures for witnesses and counterexamples -/

/-- A configuration entry with every optional field absent except the URL. -/
def urlOnlyConfig (u : String) : ServerConfig :=
  ⟨some u, none, none, none, none, none, none, none, none⟩

/-- An HTTP server record as the static loader would build it. -/
def mkTestServer (id nm u : String) : MCPServer :=
  { server_id := id
    name := nm
    url := u
    command := some ""
    args := []
    env := some []
    transport := "http"
    spec_version := "2025-03-26"
    auth_type := none
    mcp_info := ⟨nm, none, none⟩ }

/-- Static record sharing the id `"id1"` with `c1DynServer`. -/
def c1StaticServer : MCPServer := mkTestServer "id1" "static_server" "http://static"

/-- Dynamic record sharing the id `"id1"` with `c1StaticServer`. -/
def c1DynServer : MCPServer := mkTestServer "id1" "dynamic_server" "http://dynamic"

/-- A manager state holding the same id in both partitions, with different
records (reachable by `add_update_server` first and a static load second). -/
def c1State : MCPServerManager :=
  { registry := [("id1", c1DynServer)]
    config_mcp_servers := [("id1", c1StaticServer)]
    tool_name_to_mcp_server_name_mapping := [] }

/-- A state produced by loading one static config entry with alias `"A"`. -/
def c2State : MCPServerManager :=
  (load_servers_from_config MCPServerManager.empty
    [("A", urlOnlyConfig "http://x")]).1

/-- A database record carrying the same stable id as the static entry `"A"` of
`c2State` but different fields. -/
def c2DbRecord : LiteLLM_MCPServerTable :=
  { server_id := _generate_stable_server_id "A" "http://x" "http" "2025-03-26" none
    server_alias := some "A_dyn"
    description := some "other record"
    url := "http://dynamic"
    transport := "sse"
    spec_version := "2025-03-26"
    auth_type := none
    command := none
    args := none
    env := none
    mcp_info := none }

/-- A state whose static partition holds the key `"s1"` and whose dynamic
partition is empty. -/
def c3State : MCPServerManager :=
  { registry := []
    config_mcp_servers := [("s1", mkTestServer "s1" "static_one" "http://s1")]
    tool_name_to_mcp_server_name_mapping := [] }

/-- A database record whose `server_id` is the static-only key of `c3State`. -/
def c3DbRecord : LiteLLM_MCPServerTable :=
  { server_id := "s1"
    server_alias := none
    description := none
    url := "http://s1"
    transport := "http"
    spec_version := "2025-03-26"
    auth_type := none
    command := none
    args := none
    env := none
    mcp_info := none }

/-- A record not present anywhere, for the no-op branch of `remove_server`. -/
def c3MissingDbRecord : LiteLLM_MCPServerTable :=
  { c3DbRecord with server_id := "absent", server_alias := some "nobody" }

/-- A well-formed config entry preceding the malformed one. -/
def c4Pre : List (String × ServerConfig) := [("good_one", urlOnlyConfig "http://g1")]

/-- A malformed config entry: the alias uses the reserved separator. -/
def c4BadEntry : String × ServerConfig := ("bad.name", urlOnlyConfig "http://bad")

/-- A well-formed config entry following the malformed one. -/
def c4Post : List (String × ServerConfig) := [("good_two", urlOnlyConfig "http://g2")]

/-- The tool reported by the succeeding upstream of the C5 scenario. -/
def c5OkTool : MCPTool := ⟨"read", some "read a file", "schema1"⟩

/-- The upstream whose listing operation fails in the C5 scenario. -/
def c5FailServer : MCPServer := mkTestServer "f1" "failsrv" "http://fail"

/-- The upstream whose listing operation succeeds in the C5 scenario. -/
def c5OkServer : MCPServer := mkTestServer "ok2" "oksrv" "http://ok"

/-- A state holding both C5 upstreams in the dynamic partition. -/
def c5State : MCPServerManager :=
  { registry := [("f1", c5FailServer), ("ok2", c5OkServer)]
    config_mcp_servers := []
    tool_name_to_mcp_server_name_mapping := [] }

/-- A listing operation raising a connection fault on the first C5 upstream
and succeeding on every other. -/
def c5ListOp : MCPServer → Except String (List MCPTool) :=
  fun s => if s.server_id = "f1" then Except.error "ConnectionError" else Except.ok [c5OkTool]

/-- A state with one id in each partition, for the C6 witness. -/
def c6State : MCPServerManager :=
  { registry := [("sB", mkTestServer "sB" "beta" "http://b")]
    config_mcp_servers := [("sA", mkTestServer "sA" "alpha" "http://a")]
    tool_name_to_mcp_server_name_mapping := [] }

/-- The first of two C7 upstreams sharing the raw tool name `"read"`. -/
def c7srvA : MCPServer := mkTestServer "idA" "srvA" "http://a"

/-- The second of two C7 upstreams sharing the raw tool name `"read"`. -/
def c7srvB : MCPServer := mkTestServer "idB" "srvB" "http://b"

/-- A third upstream, valid but not owning the raw name, for the mismatch
witness. -/
def c7srvC : MCPServer := mkTestServer "idC" "srvC" "http://c"

/-- A state after aggregating both C7 upstreams, each exposing raw tool
`"read"`: the raw-name index entry holds the later writer, the qualified
entries hold their owners. -/
def c7State : MCPServerManager :=
  { registry := [("idA", c7srvA), ("idB", c7srvB)]
    config_mcp_servers := []
    tool_name_to_mcp_server_name_mapping :=
      [("read", "srvB"), ("srvA.read", "srvA"), ("srvB.read", "srvB")] }

/-- A state whose reverse index maps the qualified name `"srvC.read"` to
upstream `"srvB"` (a stale entry left over after a rename), so resolution and
the claimed alias disagree. -/
def c7MismState : MCPServerManager :=
  { registry := [("idB", c7srvB), ("idC", c7srvC)]
    config_mcp_servers := []
    tool_name_to_mcp_server_name_mapping :=
      [("read", "srvB"), ("srvB.read", "srvB"), ("srvC.read", "srvB")] }

/-- The `"files"` upstream of the C8 end-to-end scenario. -/
def c8FilesServer : MCPServer := mkTestServer "fid" "files" "http://files"

/-- A second configured upstream of the C8 scenario, exposing a different
tool. -/
def c8OtherServer : MCPServer := mkTestServer "oid" "other" "http://other"

/-- The C8 state before aggregation: both upstreams statically configured. -/
def c8BaseState : MCPServerManager :=
  { registry := []
    config_mcp_servers := [("fid", c8FilesServer), ("oid", c8OtherServer)]
    tool_name_to_mcp_server_name_mapping := [] }

/-- The listing operation of the C8 scenario: `files` exposes raw `"read"`,
the other upstream exposes raw `"write"`. -/
def c8ListOp : MCPServer → Except String (List MCPTool) :=
  fun s =>
    if s.server_id = "fid" then Except.ok [⟨"read", some "read a file", "rs"⟩]
    else Except.ok [⟨"write", some "write a file", "ws"⟩]

/-- The C8 state after one aggregation pass over all registered upstreams. -/
def c8State : MCPServerManager :=
  (list_tools c8ListOp c8BaseState []).2

/-! ## Lemmas about the dictionary model -/

/-- Lookup distributes over append, preferring the left list. -/
theorem dget?_append {α : Type} (l1 l2 : List (String × α)) (k : String) :
    dget? (l1 ++ l2) k = (dget? l1 k).or (dget? l2 k) := by
  induction l1 with
  | nil => simp [dget?]
  | cons p rest ih =>
    obtain ⟨k', v'⟩ := p
    by_cases h : k' = k <;> simp [dget?, h, ih]

/-- Lookup in the value-overridden left half of `dunion`. -/
theorem dget?_dunion_left {α : Type} (a b : List (String × α)) (k : String) :
    dget? (a.map (fun p => match dget? b p.1 with | some v => (p.1, v) | none => p)) k =
      match dget? a k with
      | none => none
      | some v => some ((dget? b k).getD v) := by
  induction a with
  | nil => simp [dget?]
  | cons p rest ih =>
    obtain ⟨k', v'⟩ := p
    by_cases h : k' = k
    · subst h
      cases hb : dget? b k' <;> simp [dget?, hb]
    · cases hb : dget? b k' <;> simp [dget?, h, hb, ih]

/-- Lookup in the filtered right half of `dunion`, when the key is not in `a`. -/
theorem dget?_dunion_right_not_mem {α : Type} (a b : List (String × α)) (k : String)
    (h : dcontains a k = false) :
    dget? (b.filter (fun p => !(dcontains a p.1))) k = dget? b k := by
  induction b with
  | nil => simp [dget?]
  | cons p rest ih =>
    obtain ⟨k', v'⟩ := p
    by_cases hk : k' = k
    · subst hk
      simp [List.filter_cons, h, dget?]
    · cases hc : dcontains a k' <;> simp [List.filter_cons, hc, dget?, hk, ih]

/-- Lookup in the filtered right half of `dunion`, when the key is in `a`. -/
theorem dget?_dunion_right_mem {α : Type} (a b : List (String × α)) (k : String)
    (h : dcontains a k = true) :
    dget? (b.filter (fun p => !(dcontains a p.1))) k = none := by
  induction b with
  | nil => simp [dget?]
  | cons p rest ih =>
    obtain ⟨k', v'⟩ := p
    by_cases hk : k' = k
    · subst hk
      simp [List.filter_cons, h, dget?, ih]
    · cases hc : dcontains a k' <;> simp [List.filter_cons, hc, dget?, hk, ih]

/-- Lookup in a Python dict union: the right operand wins on shared keys. -/
theorem dget?_dunion {α : Type} (a b : List (String × α)) (k : String) :
    dget? (dunion a b) k = (dget? b k).or (dget? a k) := by
  unfold dunion
  rw [dget?_append, dget?_dunion_left]
  cases ha : dget? a k with
  | none =>
    have hc : dcontains a k = false := by simp [dcontains, ha]
    rw [dget?_dunion_right_not_mem _ _ _ hc]
    cases hb : dget? b k <;> simp
  | some v =>
    cases hb : dget? b k <;> simp

/-! ## Lemmas about the hex output -/

/-- `hexChar` of a nibble is a lowercase hex digit. -/
theorem isLowerHexChar_hexChar (n : Nat) (h : n < 16) : isLowerHexChar (hexChar n) = true := by
  interval_cases n <;> decide

/-- `hexChar` of anything reduced mod 16 is a lowercase hex digit. -/
theorem isLowerHexChar_hexChar_mod (n : Nat) : isLowerHexChar (hexChar (n % 16)) = true :=
  isLowerHexChar_hexChar _ (Nat.mod_lt _ (by norm_num))

/-- Every character of a word's hex rendering is a lowercase hex digit. -/
theorem wordHexChars_all (w : Nat) : (wordHexChars w).all isLowerHexChar = true := by
  simp [wordHexChars, isLowerHexChar_hexChar_mod]

/-- A word renders as eight hex characters. -/
theorem wordHexChars_length (w : Nat) : (wordHexChars w).length = 8 := by
  simp [wordHexChars]

/-- A digest renders as 64 hex characters. -/
theorem hash8HexChars_length (h : Hash8) : (hash8HexChars h).length = 64 := by
  simp [hash8HexChars, wordHexChars]

/-- Every character of a digest's hex rendering is a lowercase hex digit. -/
theorem hash8HexChars_all (h : Hash8) : (hash8HexChars h).all isLowerHexChar = true := by
  simp [hash8HexChars, List.all_append, wordHexChars_all]

/-! ## Claims -/

/-- C1, counterexample: with id `"id1"` in both partitions, `get_registry`
(the Python dict union `config_mcp_servers | self.registry`) reports the
dynamic record, not the static one — the claim's "static wins ties" fails. -/
theorem get_registry_static_precedence_cex :
    dget? c1State.get_registry "id1" ≠ some c1StaticServer ∧
    dget? c1State.get_registry "id1" = some c1DynServer := by
  exact ⟨by decide, by decide⟩

/-- C1 (amended): for every pair of upstream records sharing the same id, the
first loaded into the static partition and the second present in the dynamic
partition, the mapping returned by `get_registry` maps that id to the
**dynamic** record (the right operand of Python's dict union wins ties). -/
theorem get_registry_dynamic_wins (st : MCPServerManager) (id : String)
    (recS recD : MCPServer)
    (_hs : dget? st.config_mcp_servers id = some recS)
    (hd : dget? st.registry id = some recD) :
    dget? st.get_registry id = some recD := by
  simp [MCPServerManager.get_registry, dget?_dunion, hd]

/-- C1 witness: the amended theorem applied to `c1State`. -/
theorem get_registry_dynamic_wins_witness :
    dget? c1State.get_registry "id1" = some c1DynServer :=
  get_registry_dynamic_wins c1State "id1" c1StaticServer c1DynServer rfl rfl

/-- C2: when a record's `server_id` is already a key of the union of both
partitions, `add_update_server` is a no-op — the whole state, and hence the
union reported by `get_registry`, is unchanged. -/
theorem add_update_server_noop (st : MCPServerManager) (rec : LiteLLM_MCPServerTable)
    (h : dcontains st.get_registry rec.server_id = true) :
    add_update_server st rec = st ∧
    (add_update_server st rec).get_registry = st.get_registry := by
  have heq : add_update_server st rec = st := by
    simp [add_update_server, h]
  exact ⟨heq, by rw [heq]⟩

/-- C2 witness: after loading static entry `"A"`, upserting a record carrying
A's stable id (but different fields) leaves the state unchanged, so the union
still reports A's static fields. -/
theorem add_update_server_noop_witness :
    dcontains c2State.get_registry c2DbRecord.server_id = true ∧
    add_update_server c2State c2DbRecord = c2State :=
  ⟨by decide, (add_update_server_noop c2State c2DbRecord (by decide)).1⟩

/-- C3: the claim says `remove_server` never raises; but on a record whose
`server_id` is a key of the static partition only, the membership test against
the union succeeds while the `del` on the dynamic partition raises `KeyError`. -/
theorem remove_server_raises_keyerror :
    remove_server c3State c3DbRecord = Except.error "KeyError" := rfl

/-- C9: the generated id is a pure function of the pipe-joined parameter tuple
(identical tuples give identical ids, in any process), and the two-upstream
scenario — identical parameters except an absent versus a present non-empty
`auth_type` — yields different ids. -/
theorem generate_stable_server_id_deterministic :
    (∀ (n₁ u₁ t₁ s₁ : String) (a₁ : Option String) (n₂ u₂ t₂ s₂ : String)
        (a₂ : Option String),
      stableIdParamsString n₁ u₁ t₁ s₁ a₁ = stableIdParamsString n₂ u₂ t₂ s₂ a₂ →
      _generate_stable_server_id n₁ u₁ t₁ s₁ a₁ =
        _generate_stable_server_id n₂ u₂ t₂ s₂ a₂) ∧
    _generate_stable_server_id "alias" "http://a" "http" "2025-03-26" none ≠
      _generate_stable_server_id "alias" "http://a" "http" "2025-03-26" (some "api_key") := by
  constructor
  · intro n₁ u₁ t₁ s₁ a₁ n₂ u₂ t₂ s₂ a₂ h
    simp only [_generate_stable_server_id, h]
  · decide

/-- C9 witness: the determinism half applied to a tuple written two ways —
`auth_type` absent versus present-but-empty join to the same parameter string,
so the ids agree. -/
theorem generate_stable_server_id_deterministic_witness :
    _generate_stable_server_id "A" "http://x" "http" "2025-03-26" none =
      _generate_stable_server_id "A" "http://x" "http" "2025-03-26" (some "") :=
  generate_stable_server_id_deterministic.1 "A" "http://x" "http" "2025-03-26" none
    "A" "http://x" "http" "2025-03-26" (some "") rfl

/-- C10: for every parameter tuple, the generated id is exactly 32 characters
long and consists only of lowercase hexadecimal digits. -/
theorem generate_stable_server_id_hex32 (server_name url transport spec_version : String)
    (auth_type : Option String) :
    (_generate_stable_server_id server_name url transport spec_version auth_type).length
        = 32 ∧
    ((_generate_stable_server_id server_name url transport spec_version auth_type).data.all
        isLowerHexChar) = true := by
  constructor
  · show (String.mk _).length = 32
    simp [String.length, List.length_take, hash8HexChars_length]
  · show (List.take 32 _).all isLowerHexChar = true
    rw [List.all_eq_true]
    intro c hc
    have hall := hash8HexChars_all (sha256Hash (strBytes
      (stableIdParamsString server_name url transport spec_version auth_type)))
    rw [List.all_eq_true] at hall
    exact hall c (List.mem_of_mem_take hc)

/-- C4, counterexample: a config whose malformed entry comes first and a
well-formed entry second fails with `InvalidConfiguration` while loading
nothing at all — the well-formed entry is **not** loaded, against the claim
that all other entries still load. -/
theorem load_servers_aborts_cex :
    (load_servers_from_config MCPServerManager.empty (c4BadEntry :: c4Post)).2 =
        some "InvalidConfiguration" ∧
    (load_servers_from_config MCPServerManager.empty
        (c4BadEntry :: c4Post)).1.config_mcp_servers = [] :=
  ⟨rfl, rfl⟩

/-- C4 (amended): `load_servers_from_config` loads the entries preceding the
first malformed one into the static partition, then fails that entry with
`InvalidConfiguration`; the entries after it are not processed (the loop is
aborted by the raised exception). -/
theorem load_servers_loads_until_first_invalid (st : MCPServerManager)
    (pre : List (String × ServerConfig)) (bad : String × ServerConfig)
    (post : List (String × ServerConfig))
    (hpre : ∀ p ∈ pre, validate_mcp_server_name p.1 = Except.ok ())
    (hbad : validate_mcp_server_name bad.1 = Except.error "InvalidConfiguration") :
    load_servers_from_config st (pre ++ bad :: post) =
      (pre.foldl (fun s p => loadConfigEntry s p.1 p.2) st, some "InvalidConfiguration") := by
  induction pre generalizing st with
  | nil =>
    obtain ⟨nm, sc⟩ := bad
    simpa [load_servers_from_config] using by rw [hbad]
  | cons p rest ih =>
    obtain ⟨nm, sc⟩ := p
    have hp := hpre (nm, sc) (List.mem_cons_self _ rest)
    simp only [List.cons_append, load_servers_from_config, hp, List.foldl_cons]
    exact ih (loadConfigEntry st nm sc) (fun q hq => hpre q (List.mem_cons_of_mem _ hq))

/-- C4 witness: the amended theorem at a concrete config — the entry before
the malformed alias is loaded, the one after it is not. -/
theorem load_servers_loads_until_first_invalid_witness :
    load_servers_from_config MCPServerManager.empty (c4Pre ++ c4BadEntry :: c4Post) =
      (c4Pre.foldl (fun s p => loadConfigEntry s p.1 p.2) MCPServerManager.empty,
        some "InvalidConfiguration") :=
  load_servers_loads_until_first_invalid MCPServerManager.empty c4Pre c4BadEntry c4Post
    (by
      intro p hp
      simp only [c4Pre, List.mem_singleton] at hp
      subst hp
      rfl)
    rfl

/-- C5: with an allow-list of two resolvable upstreams where the first one's
listing operation fails and the second one's succeeds, `list_tools` returns
exactly the second upstream's (prefixed) tools — the failure is absorbed at
the per-server boundary and contributes nothing. -/
theorem list_tools_isolates_failure (list_tools_op : MCPServer → Except String (List MCPTool))
    (st : MCPServerManager) (id1 id2 : String) (s1 s2 : MCPServer) (e : String)
    (ts : List MCPTool)
    (h1 : get_mcp_server_by_id st id1 = some s1)
    (h2 : get_mcp_server_by_id st id2 = some s2)
    (hf : list_tools_op s1 = Except.error e)
    (hs : list_tools_op s2 = Except.ok ts) :
    (list_tools list_tools_op st [id1, id2]).1 =
      ts.map (fun t => { t with name := add_server_prefix_to_tool_name t.name s2.name }) := by
  simp [list_tools, get_allowed_mcp_servers, h1, h2, hf, hs, _get_tools_from_server]

/-- C5 witness: the isolation theorem at the concrete two-upstream scenario. -/
theorem list_tools_isolates_failure_witness :
    (list_tools c5ListOp c5State ["f1", "ok2"]).1 =
      [c5OkTool].map
        (fun t => { t with name := add_server_prefix_to_tool_name t.name c5OkServer.name }) :=
  list_tools_isolates_failure c5ListOp c5State "f1" "ok2" c5FailServer c5OkServer
    "ConnectionError" [c5OkTool] rfl rfl rfl rfl

/-- C6: when the authorization oracle returns an empty list the effective
allow-list is exactly the keys of the current union of both partitions, and a
non-empty oracle result is returned unchanged. -/
theorem get_allowed_mcp_servers_spec (st : MCPServerManager) (oracle : List String) :
    (oracle = [] → get_allowed_mcp_servers st oracle = dkeys st.get_registry) ∧
    (oracle ≠ [] → get_allowed_mcp_servers st oracle = oracle) := by
  constructor
  · intro h
    subst h
    rfl
  · intro h
    have hl : 0 < oracle.length := List.length_pos.mpr h
    simp [get_allowed_mcp_servers, hl]

/-- C6 witness: both halves of the allow-list theorem at a concrete state. -/
theorem get_allowed_mcp_servers_spec_witness :
    get_allowed_mcp_servers c6State [] = dkeys c6State.get_registry ∧
    get_allowed_mcp_servers c6State ["only-this"] = ["only-this"] :=
  ⟨(get_allowed_mcp_servers_spec c6State []).1 rfl,
   (get_allowed_mcp_servers_spec c6State ["only-this"]).2 (by decide)⟩

/-- C7: whenever the decomposed name carries a non-empty claimed alias whose
normalization differs from the resolved upstream's normalized name,
`call_tool` fails with the prefix-mismatch error and never dispatches; and in
the two-upstreams-one-raw-name scenario a correct prefix for one of them
resolves the call to exactly that upstream. -/
theorem call_tool_prefix_mismatch :
    (∀ (Args R : Type) (op : MCPServer → String → Args → R) (st : MCPServerManager)
        (name raw c : String) (srv : MCPServer) (args : Args),
      get_server_name_prefix_tool_mcp name = (raw, some c) →
      c ≠ "" →
      _get_mcp_server_from_tool_name st name = some srv →
      normalize_server_name c ≠ normalize_server_name srv.name →
      call_tool op st name args = Except.error RouteError.prefixMismatch) ∧
    (∀ (Args R : Type) (op : MCPServer → String → Args → R) (args : Args),
      call_tool op c7State "srvA.read" args = Except.ok (op c7srvA "read" args)) := by
  constructor
  · intro Args R op st name raw c srv args hdec hne hres hmis
    simp only [call_tool, hdec, hres]
    exact if_pos ⟨hne, hmis⟩
  · intro Args R op args
    rfl

/-- C7 witness: the mismatch half applied to the stale-index state — routing
`"srvC.read"` resolves `srvB` via the index, the claimed alias `srvC`
mismatches, and the call fails with the prefix-mismatch error. -/
theorem call_tool_prefix_mismatch_witness :
    call_tool (fun s n (_ : Unit) => (s.server_id, n)) c7MismState "srvC.read" () =
      Except.error RouteError.prefixMismatch :=
  call_tool_prefix_mismatch.1 Unit (String × String) (fun s n _ => (s.server_id, n))
    c7MismState "srvC.read" "read" "srvC" c7srvB () rfl (by decide) rfl (by decide)

/-- C8: a successfully routed call dispatches the upstream operation with the
decomposed raw name — never the qualified name — and returns its result
unchanged; in particular, after one aggregation pass, routing `"files.read"`
dispatches `"read"` to the `files` upstream, not to any other configured
upstream. -/
theorem call_tool_dispatches_raw_name :
    (∀ (Args R : Type) (op : MCPServer → String → Args → R) (st : MCPServerManager)
        (name : String) (srv : MCPServer) (args : Args),
      _get_mcp_server_from_tool_name st name = some srv →
      (∀ c, (get_server_name_prefix_tool_mcp name).2 = some c →
        c = "" ∨ normalize_server_name c = normalize_server_name srv.name) →
      call_tool op st name args =
        Except.ok (op srv (get_server_name_prefix_tool_mcp name).1 args)) ∧
    (∀ (Args R : Type) (op : MCPServer → String → Args → R) (args : Args),
      call_tool op c8State "files.read" args = Except.ok (op c8FilesServer "read" args)) := by
  constructor
  · intro Args R op st name srv args hres hok
    simp only [call_tool, hres]
    cases hp : (get_server_name_prefix_tool_mcp name).2 with
    | none => rfl
    | some c =>
      have hneg : ¬(c ≠ "" ∧ normalize_server_name c ≠ normalize_server_name srv.name) := by
        rcases hok c hp with h | h
        · exact fun hc => hc.1 h
        · exact fun hc => hc.2 h
      simp [hneg]
  · intro Args R op args
    rfl

/-- C8 witness: the dispatch half applied to the aggregated C8 state with a
concrete upstream operation recording which server and raw name it was given. -/
theorem call_tool_dispatches_raw_name_witness :
    call_tool (fun s n (_ : Unit) => (s.server_id, n)) c8State "files.read" () =
      Except.ok ("fid", "read") := by
  have h := call_tool_dispatches_raw_name.1 Unit (String × String)
    (fun s n _ => (s.server_id, n)) c8State "files.read" c8FilesServer () rfl
    (fun c hc => by
      have hcc : some "files" = some c := hc
      injection hcc with h2
      subst h2
      exact Or.inr rfl)
  exact h
